import Mathlib

/-!
Verification development for the LC76G GNSS I2C transport and command
protocol (vendor demo `demo/C/src` and the Pico port
`src/gps/lc76g_i2c_adaptor.c`).

The C functions are embedded shallowly:
- byte buffers become `List ℕ` with each element a byte value,
- the I2C bus becomes an explicit state-passing oracle (`Bus`),
- C `int` arithmetic becomes `ℤ` with explicit 32-bit wrapping where the
  code can overflow (`buf2num_small`),
- unbounded C loops (`do ... while`, `goto RESTART`) take an explicit
  fuel argument.

Constant names and values follow `demo/C/inc/I2C/i2c_register.h`; function
names follow the source (the demo and the Pico port implement the same
logic; the Pico snake_case names are used).
-/

namespace LC76G

/-- Constant `RETRY_TIME` from i2c_register.h: bound on per-operation bus retries. -/
def RETRY_TIME : ℕ := 20

/-- Constant `QL_CRCW_ADDR` (0x50): control sub-address. -/
def QL_CRCW_ADDR : ℕ := 0x50

/-- Constant `QL_RD_ADDR` (0x54): read-data sub-address. -/
def QL_RD_ADDR : ℕ := 0x54

/-- Constant `QL_WR_ADDR` (0x58): write-data sub-address. -/
def QL_WR_ADDR : ℕ := 0x58

/-- Constant `QL_RW_DATA_LENGTH_SIZE`: the pending-length value is 4 bytes. -/
def QL_RW_DATA_LENGTH_SIZE : ℤ := 4

/-- Constant `QL_MAX_DATA_LENGTH`: per-transaction chunk bound of the reader. -/
def QL_MAX_DATA_LENGTH : ℤ := 4096

/-- Constant `QL_CR_REG`: configure-read-length register id. -/
def QL_CR_REG : ℤ := 0xaa510008

/-- Constant `QL_RD_REG`: read-data register id. -/
def QL_RD_REG : ℤ := 0xaa512000

/-- Constant `QL_CW_REG`: configure-write (free-space query) register id. -/
def QL_CW_REG : ℤ := 0xaa510004

/-- Constant `QL_WR_REG`: write-data register id. -/
def QL_WR_REG : ℤ := 0xaa531000

/-- Constants `QL_CR_LEN` and `QL_CW_LEN` are both 4. -/
def QL_CW_LEN : ℤ := 4

/-- Function `buf2num_small` (i2c_utils.c / lc76g_i2c_adaptor.c): assemble four
bytes little-endian into a C `int`, i.e. reduce into the signed 32-bit
range.  `buf[0] | buf[1]<<8 | buf[2]<<16 | buf[3]<<24`. -/
def buf2num_small (buf : List ℕ) : ℤ :=
  let v : ℤ := (buf.getD 0 0 : ℤ) + (buf.getD 1 0 : ℤ) * 256
    + (buf.getD 2 0 : ℤ) * 65536 + (buf.getD 3 0 : ℤ) * 16777216
  let w := v % 4294967296
  if w < 2147483648 then w else w - 4294967296

/-- Function `Ql_Get_Command_Checksum` / `lc76g_get_command_checksum`: XOR of the
first `bufferLen` bytes of `buffer` (the split into two nibbles and the
recombination `checkSumL * 16 + checkSumR` is the identity on the running
XOR of byte values). -/
def lc76g_get_command_checksum (buffer : List ℕ) (bufferLen : ℕ) : ℕ :=
  (buffer.take bufferLen).foldl (fun a b => Nat.xor a (b % 256)) 0

/-- Decode status codes of `enum DECODE_ERROR` in ql_cmd_decode.h. -/
inductive DecodeStatus
  | No_Error
  | Format_Error
  | CheckSum_Error
  | Data_Error
deriving DecidableEq, Repr

/-- True for the token separator bytes of the decoder: `,` (44) and `*` (42). -/
def isSep (b : ℕ) : Bool := b == 44 || b == 42

/-- The byte test of the decoder data loop:
`command[i] > 'z' || command[i] < 0x0A` on a signed char.  For a byte
value `b` in 0..255 read through a signed `char`, values 128..255 become
negative (hence `< 0x0A`) and 123..127 exceed 122, so the test is
equivalent to `b < 10 ∨ 122 < b`. -/
def nonPrintable (b : ℕ) : Bool := decide (b < 10) || decide (122 < b)

/-- The checksum-nibble decoding of `Ql_Command_Get_Param`:
`c >= 'A' ? c - 'A' + 10 : c - '0'` in signed `int32_t` arithmetic. -/
def hexVal (c : ℕ) : ℤ := if 65 ≤ c then (c : ℤ) - 65 + 10 else (c : ℤ) - 48

/-- An uppercase hexadecimal digit byte, `0`..`9` or `A`..`F` — the form
of the two checksum characters in a well-formed NMEA frame. -/
def isUpperHex (c : ℕ) : Bool :=
  (decide (48 ≤ c) && decide (c ≤ 57)) || (decide (65 ≤ c) && decide (c ≤ 70))

/-- The tokenizer of the decoder loop: split on `,` and `*`, dropping the
separators; token `j` receives the bytes written to `contx->param[j]`. -/
def splitSep : List ℕ → List (List ℕ)
  | [] => [[]]
  | b :: rest =>
    if isSep b then [] :: splitSep rest
    else
      match splitSep rest with
      | [] => [[b]]
      | t :: ts => (b :: t) :: ts

/-- The parameter context filled by the decoder
(`Ql_gnss_command_contx_TypeDef`). -/
structure GnssCtx where
  params : List (List ℕ)
  param_num : ℕ
  checksum : ℤ
deriving DecidableEq, Repr

/-- The framing predicate of `Ql_Command_Get_Param` /
`lc76g_command_get_param`: `command[0] = '$'`, `command[length-1] = '\n'`,
`command[length-2] = '\r'`, `command[length-5] = '*'`.  Faithful for
calls with `length ≥ 5`; shorter calls index outside the buffer in C
(see `framing_check_reads`). -/
def framingOk (cmd : List ℕ) : Bool :=
  cmd.getD 0 0 == 36 && cmd.getD (cmd.length - 1) 0 == 10
    && cmd.getD (cmd.length - 2) 0 == 13 && cmd.getD (cmd.length - 5) 0 == 42

/-- Function `Ql_Command_Get_Param` / `lc76g_command_get_param` on a command of
`length = cmd.length` bytes.  Mirrors the source order: framing check,
then the scan loop (first byte outside the accepted range aborts with
`Data_Error`; otherwise the bytes are tokenized on `,` and `*`), then the
`k > 30` length check on the trailing token, then the checksum
comparison `checksum_l * 16 + checksum_r = XOR (command+1, length-6)`. -/
def lc76g_command_get_param (cmd : List ℕ) : DecodeStatus × GnssCtx :=
  let toks := splitSep cmd
  let lastTok := toks.getLastD []
  let csum : ℤ := lc76g_get_command_checksum (cmd.drop 1) (cmd.length - 6)
  let ctx : GnssCtx := ⟨toks, toks.length - 1, csum⟩
  if ¬ framingOk cmd then (DecodeStatus.Format_Error, ctx)
  else if cmd.any nonPrintable then (DecodeStatus.Data_Error, ctx)
  else if 30 < lastTok.length then (DecodeStatus.Format_Error, ctx)
  else if hexVal (lastTok.getD 0 0) * 16 + hexVal (lastTok.getD 1 0) ≠ csum then
    (DecodeStatus.CheckSum_Error, ctx)
  else (DecodeStatus.No_Error, ctx)

/-- The I2C bus as a deterministic state-passing oracle.  Each field is
one primitive transaction of the source (`Write_Dummy_Addr`,
`Write_CR_Data`/`Write_CW_Data` which send an 8-byte register/length
message to `QL_CRCW_ADDR`, `Read_RD_Data` from `QL_RD_ADDR`, and
`Write_WR_Data` to `QL_WR_ADDR`).  `Bool` is success of the `ioctl`
(demo) respectively the full-length transfer (Pico); a read yields the
bytes placed in the caller buffer, `none` on failure. -/
structure Bus (σ : Type) where
  writeDummy : σ → ℕ → Bool × σ
  writeCfg : σ → ℤ → ℤ → Bool × σ
  readRD : σ → ℤ → Option (List ℕ) × σ
  writeWR : σ → List ℕ → Bool × σ

/-- Function `Recovery_I2C` / `recovery_i2c`: probe the control, read-data and
write-data sub-addresses in that order; return the index of the first
one that acknowledges, `-1` if none does. -/
def recovery_i2c {σ : Type} (bus : Bus σ) (s : σ) : ℤ × σ :=
  let r1 := bus.writeDummy s QL_CRCW_ADDR
  if r1.1 then (0, r1.2)
  else
    let r2 := bus.writeDummy r1.2 QL_RD_ADDR
    if r2.1 then (1, r2.2)
    else
      let r3 := bus.writeDummy r2.2 QL_WR_ADDR
      if r3.1 then (2, r3.2) else (-1, r3.2)

/-- A `for (i = 0; i < n; i++) { if (op succeeds) break; }` retry loop:
returns whether some attempt succeeded, threading the bus state. -/
def retryOp {σ : Type} (f : σ → Bool × σ) : ℕ → σ → Bool × σ
  | 0, s => (false, s)
  | n + 1, s =>
    let r := f s
    if r.1 then (true, r.2) else retryOp f n r.2

/-- The retry loop around `Read_RD_Data`: first successful attempt
returns its bytes; all attempts failing returns `none`. -/
def retryRead {σ : Type} (bus : Bus σ) (len : ℤ) : ℕ → σ → Option (List ℕ) × σ
  | 0, s => (none, s)
  | n + 1, s =>
    match bus.readRD s len with
    | (some b, s') => (some b, s')
    | (none, s') => retryRead bus len n s'

/-- The probe loop at the head of `Write_Data` / `write_data_to_lc76g`:
up to `n` dummy writes to the control address; every failed attempt runs
`recovery_i2c`, and a recovery verdict of `-1` aborts the whole writer
(`false` here).  Falling out after `n` failed attempts continues the
writer (`true`). -/
def probeLoopW {σ : Type} (bus : Bus σ) : ℕ → σ → Bool × σ
  | 0, s => (true, s)
  | n + 1, s =>
    let r := bus.writeDummy s QL_CRCW_ADDR
    if r.1 then (true, r.2)
    else
      let rv := recovery_i2c bus r.2
      if rv.1 = -1 then (false, rv.2) else probeLoopW bus n rv.2

/-- Outcome of one `write_data` run under bounded fuel: `ret z` is the C
return value, `more` means the `do ... while (remain_flag)` loop was
still running when the fuel ran out. -/
inductive WStatus
  | ret (z : ℤ)
  | more
deriving DecidableEq, Repr

/-- The body of the `do ... while (remain_flag)` loop of `Write_Data` /
`write_data_to_lc76g`, with the loop state (`data_length_temp`,
`free_length`) explicit; `data_length` is the constant total payload
length.  Returns the status, the list of bursts handed to
`Write_WR_Data` (one entry per loop iteration), and the bus state.
Mirrors the source: probe with recovery-on-failure, free-space query
configuration (result ignored), free-space read (on total failure
`free_length` keeps its previous value), the `free_length < data_length`
comparison against the constant total, and the two burst branches —
the not-yet-final branch writes `free_length` bytes from the start of the
payload buffers, the final branch writes `data_length_temp` bytes from
offset `data_length - data_length_temp`. -/
def write_data_loop {σ : Type} (bus : Bus σ) (data : List ℕ) (dlen : ℤ) :
    ℤ → ℤ → ℕ → σ → WStatus × List (List ℕ) × σ
  | _, _, 0, s => (WStatus.more, [], s)
  | temp, free, fuel + 1, s =>
    let p := probeLoopW bus RETRY_TIME s
    if ¬ p.1 then (WStatus.ret (-1), [], p.2)
    else
      let c1 := retryOp (fun t => bus.writeCfg t QL_CW_REG QL_CW_LEN) RETRY_TIME p.2
      let fr := retryRead bus QL_CW_LEN RETRY_TIME c1.2
      let free' := match fr.1 with
        | some b => buf2num_small b
        | none => free
      if free' < dlen then
        let temp' := temp - free'
        let c2 := retryOp (fun t => bus.writeCfg t QL_WR_REG free') RETRY_TIME fr.2
        let burst := data.take free'.toNat
        let w := retryOp (fun t => bus.writeWR t burst) RETRY_TIME c2.2
        let rest := write_data_loop bus data dlen temp' free' fuel w.2
        (rest.1, burst :: rest.2.1, rest.2.2)
      else
        let c2 := retryOp (fun t => bus.writeCfg t QL_WR_REG temp) RETRY_TIME fr.2
        let burst := (data.drop (dlen - temp).toNat).take temp.toNat
        let w := retryOp (fun t => bus.writeWR t burst) RETRY_TIME c2.2
        (WStatus.ret 0, [burst], w.2)

/-- Function `Write_Data` / `write_data_to_lc76g` on a payload of
`data.length` bytes. -/
def write_data {σ : Type} (bus : Bus σ) (data : List ℕ) (fuel : ℕ) (s : σ) :
    WStatus × List (List ℕ) × σ :=
  write_data_loop bus data (data.length : ℤ) (data.length : ℤ) 0 fuel s

/-- Constant `QL_CR_LEN` from i2c_register.h: 4. -/
def QL_CR_LEN : ℤ := 4

/-- The probe loop at the head of `Read_Data` / `read_data_from_lc76g`:
up to `n` dummy writes to the control address; unlike the writer, the
reader runs `recovery_i2c` only on the final failed attempt, aborting
(`false`, C return `-1`) when recovery reports `-1` and continuing
otherwise. -/
def probeLoopR {σ : Type} (bus : Bus σ) : ℕ → σ → Bool × σ
  | 0, s => (true, s)
  | n + 1, s =>
    let r := bus.writeDummy s QL_CRCW_ADDR
    if r.1 then (true, r.2)
    else if n = 0 then
      let rv := recovery_i2c bus r.2
      if rv.1 = -1 then (false, rv.2) else (true, rv.2)
    else probeLoopR bus n r.2

/-- Result of one `Read_Data` / `read_data_from_lc76g` call: the C
return value (`-1` error, `0` no data, else byte count), the bytes
accumulated into the caller buffer, and the list of chunk-read lengths
requested on the bus after the length negotiation (empty iff the reader
never attempted to read the advertised payload). -/
structure ReadOut where
  ret : ℤ
  data : List ℕ
  chunkReqs : List ℤ
deriving DecidableEq, Repr

/-- The `while (remain_length > 0)` chunk loop of `Read_Data` /
`read_data_from_lc76g`: each iteration reads
`min (remain, QL_MAX_DATA_LENGTH)` bytes (configure loop failures are
only logged), accumulates them, returns `QL_MAX_DATA_LENGTH` as soon as
the running total reaches it, and returns `-1` when a chunk read fails
its whole retry budget; falling out of the loop returns the total. -/
def chunkLoopF {σ : Type} (bus : Bus σ) :
    ℕ → ℤ → ℤ → List ℕ → List ℤ → σ → ℤ × List ℕ × List ℤ × σ
  | 0, _, total, acc, reqs, s => (total, acc, reqs, s)
  | fuel + 1, remain, total, acc, reqs, s =>
    if 0 < remain then
      let len := if QL_MAX_DATA_LENGTH < remain then QL_MAX_DATA_LENGTH else remain
      let remain' := if QL_MAX_DATA_LENGTH < remain then remain - QL_MAX_DATA_LENGTH else 0
      let c := retryOp (fun t => bus.writeCfg t QL_RD_REG len) RETRY_TIME s
      let r := retryRead bus len RETRY_TIME c.2
      match r.1 with
      | some b =>
        let acc' := acc ++ b.take len.toNat
        let total' := total + len
        let reqs' := reqs ++ [len]
        if QL_MAX_DATA_LENGTH ≤ total' then (QL_MAX_DATA_LENGTH, acc', reqs', r.2)
        else chunkLoopF bus fuel remain' total' acc' reqs' r.2
      | none => (-1, acc, reqs ++ [len], r.2)
    else (total, acc, reqs, s)

/-- Entry point of the chunk loop: every iteration shrinks the remaining
count by at least 1, so `remain.toNat` recursion steps always suffice
(the base case of `chunkLoopF` is only reached with `remain ≤ 0`, where
it coincides with the loop exit). -/
def chunkLoop {σ : Type} (bus : Bus σ) (remain total : ℤ) (acc : List ℕ)
    (reqs : List ℤ) (s : σ) : ℤ × List ℕ × List ℤ × σ :=
  chunkLoopF bus remain.toNat remain total acc reqs s

/-- Function `Read_Data` / `read_data_from_lc76g`, with explicit fuel bounding
the `goto RESTART` retries (the source restarts without bound when the
length-register configuration or the length read keeps failing).
Mirrors the source: probe (recovery on last attempt, `-1` on recovery
failure), configure the read-length register (`goto RESTART` after
`RETRY_TIME` failures), read the 4-byte pending length (`goto RESTART`
after `RETRY_TIME` failures), then the guard: length `0` returns `0`
with no payload read, length at or above `35*1024` returns `-1` with no
payload read, anything else enters the chunk loop (a negative length
skips it immediately, returning total `0`). -/
def read_data_loop {σ : Type} (bus : Bus σ) : ℕ → σ → Option (ReadOut × σ)
  | 0, _ => none
  | fuel + 1, s =>
    let p := probeLoopR bus RETRY_TIME s
    if ¬ p.1 then some ({ ret := -1, data := [], chunkReqs := [] }, p.2)
    else
      let c := retryOp (fun t => bus.writeCfg t QL_CR_REG QL_CR_LEN) RETRY_TIME p.2
      if ¬ c.1 then read_data_loop bus fuel c.2
      else
        let lr := retryRead bus QL_RW_DATA_LENGTH_SIZE RETRY_TIME c.2
        match lr.1 with
        | none => read_data_loop bus fuel lr.2
        | some b =>
          let len := buf2num_small b
          if len = 0 then some ({ ret := 0, data := [], chunkReqs := [] }, lr.2)
          else if 35 * 1024 ≤ len then
            some ({ ret := -1, data := [], chunkReqs := [] }, lr.2)
          else
            let ch := chunkLoop bus len 0 [] [] lr.2
            some ({ ret := ch.1, data := ch.2.1, chunkReqs := ch.2.2.1 }, ch.2.2.2)

/-- Function `Read_Data` with the standard retry constant. -/
def read_data {σ : Type} (bus : Bus σ) (fuel : ℕ) (s : σ) :
    Option (ReadOut × σ) :=
  read_data_loop bus fuel s

/-- Model of `strstr` on byte lists: index of the first occurrence of `needle`
in `hay` (`none` when absent; the empty needle matches at 0). -/
def substrIdx (hay needle : List ℕ) : Option ℕ :=
  (List.range (hay.length + 1)).find? (fun i => needle.isPrefixOf (hay.drop i))

/-- Function `data_interception` (i2c_utils.c): locate `needle` in `src` and copy
the prefix of `src` up to and including that occurrence into the
destination; `none` models the C return 1 (needle absent, destination
untouched). -/
def data_interception (src needle : List ℕ) : Option (List ℕ) :=
  match substrIdx src needle with
  | none => none
  | some i => some (src.take (i + needle.length))

/-- The C `enum COMMAND_RSP_GET_ERROR`: the tri-state response flag. -/
inductive RspFlag
  | WAITING
  | NOGET
  | GET
deriving DecidableEq, Repr

/-- The poller-side fields of `Ql_GNSS_Command_TypeDef` together with
the local variables of `Read_Thread` that persist across loop
iterations (`write_flag`, `retry_time`, `half_rsp_flag`). -/
structure PollState where
  write_flag : Bool
  retry_time : ℕ
  half_rsp_flag : Bool
  rsp_buf : List ℕ
  get_rsp_flag : RspFlag
  cmd_par : GnssCtx
deriving DecidableEq, Repr

/-- The response-matching branch of one `Read_Thread` iteration
(i2c_adapt.c), entered when a poll cycle produced `data_length > 0`
bytes `readBuf` while a command is outstanding (`write_flag`).
`expRsp` is `Ql_Command_Deal.ex_rsp_buf`, `budget` is
`Ql_Command_Deal.retry_time`.  Mirrors the source: the pending
half-response is completed and parsed first; then the buffer is searched
for the expected prefix — a complete matching line that parses to
`No_Error` sets `GET`; an incomplete one stashes the tail and sets
`half_rsp_flag`; a buffer with no prefix and no CRLF stashes the whole
buffer; otherwise the retry counter advances and reaching `budget` sets
`NOGET` and clears `write_flag`. -/
def pollStep (expRsp : List ℕ) (budget : ℕ) (st : PollState)
    (readBuf : List ℕ) : PollState :=
  if ¬ st.write_flag then st
  else
    let st1 :=
      if st.half_rsp_flag then
        let sta :=
          match data_interception readBuf [10] with
          | some line =>
            let rsp := st.rsp_buf ++ line
            let pr := lc76g_command_get_param rsp
            if pr.1 = DecodeStatus.No_Error then
              { st with write_flag := false, retry_time := 0, rsp_buf := rsp,
                        get_rsp_flag := RspFlag.GET, cmd_par := pr.2 }
            else { st with rsp_buf := rsp }
          | none => st
        { sta with half_rsp_flag := false }
      else st
    match substrIdx readBuf expRsp with
    | some i =>
      let tail := readBuf.drop i
      match data_interception tail [10] with
      | some line =>
        let pr := lc76g_command_get_param line
        if pr.1 = DecodeStatus.No_Error then
          { st1 with write_flag := false, retry_time := 0, rsp_buf := line,
                     get_rsp_flag := RspFlag.GET, cmd_par := pr.2 }
        else { st1 with rsp_buf := line }
      | none => { st1 with half_rsp_flag := true, rsp_buf := tail }
    | none =>
      if substrIdx readBuf [13, 10] = none then
        { st1 with half_rsp_flag := true, rsp_buf := readBuf }
      else
        let rt := st1.retry_time + 1
        if rt < budget then { st1 with retry_time := rt }
        else { st1 with write_flag := false, retry_time := 0,
                        get_rsp_flag := RspFlag.NOGET }

/-- Iterate `pollStep` over the successive poll-cycle buffers. -/
def pollRun (expRsp : List ℕ) (budget : ℕ) (bufs : List (List ℕ))
    (st : PollState) : PollState :=
  bufs.foldl (pollStep expRsp budget) st

/-- The poller state right after `Write_Data_and_Get_Rsp` publishes a
command: `retry_time` reset, flag `WAITING`, no half response pending. -/
def initPollState : PollState :=
  { write_flag := true, retry_time := 0, half_rsp_flag := false,
    rsp_buf := [], get_rsp_flag := RspFlag.WAITING, cmd_par := ⟨[], 0, 0⟩ }

/-- Outcome of `Write_Data_and_Get_Rsp` for its caller. -/
structure IssueOut where
  ret : ℤ
  lockReleased : Bool
deriving DecidableEq, Repr

/-- The tail of `Write_Data_and_Get_Rsp` (i2c_write.c): the caller spins
while the flag is `WAITING` (`none`: still blocked); once the poller has
moved it, `NOGET` unlocks `Ql_Write_Cmd` and returns `-1`, and `GET`
copies the parameter context out, unlocks and returns `0`. -/
def write_data_and_get_rsp (finalFlag : RspFlag) : Option IssueOut :=
  match finalFlag with
  | RspFlag.WAITING => none
  | RspFlag.NOGET => some { ret := -1, lockReleased := true }
  | RspFlag.GET => some { ret := 0, lockReleased := true }

/-- Composition of the coordinator with the poller: run the poller over
the given sequence of poll-cycle buffers from the just-published state,
then return what `Write_Data_and_Get_Rsp` does on the resulting flag. -/
def issue_outcome (expRsp : List ℕ) (budget : ℕ) (bufs : List (List ℕ)) :
    Option IssueOut × PollState :=
  let fin := pollRun expRsp budget bufs initPollState
  (write_data_and_get_rsp fin.get_rsp_flag, fin)

/-- The command-transmission phase of a `Read_Thread` iteration:
`do { ret = Write_Data(...); } while (ret != 0);` — an unbounded retry
of the whole writer.  `wfuel` bounds each inner `Write_Data` run,
`n` bounds the number of outer attempts; `none` means the loop was
still running after `n` attempts (or the writer itself ran out of
fuel). -/
def transmitLoop {σ : Type} (bus : Bus σ) (cmd : List ℕ) (wfuel : ℕ) :
    ℕ → σ → Option σ
  | 0, _ => none
  | n + 1, s =>
    let w := write_data bus cmd wfuel s
    match w.1 with
    | WStatus.more => none
    | WStatus.ret z =>
      if z = 0 then some w.2.2 else transmitLoop bus cmd wfuel n w.2.2

/-- The four indices read by the framing check of the decoder, in source
order of the `||` chain: `command[0]`, `command[length-1]`,
`command[length-2]`, `command[length-5]`, as signed offsets from the
start of the `command` buffer. -/
def framing_check_reads (length : ℤ) : List ℤ :=
  [0, length - 1, length - 2, length - 5]

/-- A bus whose every transaction succeeds, whose free-space/pending
length reads always return the 4 little-endian bytes of `len4`, and
whose chunk reads return `chunkByte` repeated. -/
def constBus (len4 : List ℕ) (chunkByte : ℕ) : Bus Unit where
  writeDummy := fun s _ => (true, s)
  writeCfg := fun s _ _ => (true, s)
  readRD := fun s len =>
    (if len = 4 then some len4 else some (List.replicate len.toNat chunkByte), s)
  writeWR := fun s _ => (true, s)

/-- A bus that acknowledges everything and answers the i-th 4-byte read
with the i-th entry of `frees` (little-endian encoded); the state counts
the 4-byte reads already served. -/
def seqFreeBus (frees : List ℕ) : Bus ℕ where
  writeDummy := fun s _ => (true, s)
  writeCfg := fun s _ _ => (true, s)
  readRD := fun s _ =>
    let f := frees.getD s 0
    (some [f % 256, f / 256 % 256, f / 65536 % 256, f / 16777216 % 256], s + 1)
  writeWR := fun s _ => (true, s)

/-- A bus on which every transaction fails. -/
def deadBus : Bus Unit where
  writeDummy := fun s _ => (false, s)
  writeCfg := fun s _ _ => (false, s)
  readRD := fun s _ => (none, s)
  writeWR := fun s _ => (false, s)

/-- A bus on which only the data writes to `QL_WR_ADDR` fail; the state
counts the failed data-write attempts.  Free-space reads report 100
bytes free. -/
def wrFailBus : Bus ℕ where
  writeDummy := fun s _ => (true, s)
  writeCfg := fun s _ _ => (true, s)
  readRD := fun s _ => (some [100, 0, 0, 0], s)
  writeWR := fun s _ => (false, s + 1)

/-- A bus that refuses every dummy write and records the sequence of
probed addresses in its state. -/
def recFailBus : Bus (List ℕ) where
  writeDummy := fun s a => (false, s ++ [a])
  writeCfg := fun s _ _ => (false, s)
  readRD := fun s _ => (none, s)
  writeWR := fun s _ => (false, s)

/-! ### List helper lemmas -/

theorem getD_drop (l : List ℕ) (n i d : ℕ) :
    (l.drop n).getD i d = l.getD (n + i) d := by
  induction l generalizing n i with
  | nil => simp [List.getD]
  | cons x xs ih =>
    cases n with
    | zero => simp
    | succ m =>
      simp only [List.drop_succ_cons]
      rw [ih]
      simp [List.getD, Nat.succ_add]

theorem getD_take (l : List ℕ) (n i d : ℕ) (h : i < n) :
    (l.take n).getD i d = l.getD i d := by
  induction l generalizing n i with
  | nil => simp
  | cons x xs ih =>
    cases n with
    | zero => omega
    | succ m =>
      cases i with
      | zero => simp
      | succ j =>
        simp only [List.take_succ_cons, List.getD_cons_succ]
        exact ih m j (by omega)

theorem set_drop_one (l : List ℕ) (i : ℕ) (b : ℕ) :
    (l.set (i + 1) b).drop 1 = (l.drop 1).set i b := by
  cases l <;> simp

theorem take_set_lt (l : List ℕ) (i n b : ℕ) (h : i < n) :
    (l.set i b).take n = (l.take n).set i b := by
  induction l generalizing i n with
  | nil => simp
  | cons x xs ih =>
    cases n with
    | zero => omega
    | succ m =>
      cases i with
      | zero => simp
      | succ j =>
        simp only [List.set_cons_succ, List.take_succ_cons]
        rw [ih j m (by omega)]

theorem drop_set_of_lt (l : List ℕ) (i n : ℕ) (b : ℕ) (h : i < n) :
    (l.set i b).drop n = l.drop n := by
  induction l generalizing i n with
  | nil => simp
  | cons x xs ih =>
    cases n with
    | zero => omega
    | succ m =>
      cases i with
      | zero => simp
      | succ j =>
        simp only [List.set_cons_succ, List.drop_succ_cons]
        exact ih j m (by omega)

theorem drop_eq_getD_cons (l : List ℕ) (n : ℕ) (h : n < l.length) :
    l.drop n = l.getD n 0 :: l.drop (n + 1) := by
  induction l generalizing n with
  | nil => simp at h
  | cons x xs ih =>
    cases n with
    | zero => simp
    | succ m =>
      simp only [List.drop_succ_cons, List.getD_cons_succ]
      exact ih m (by simpa using h)

/-! ### splitSep structure lemmas -/

theorem splitSep_ne_nil (l : List ℕ) : splitSep l ≠ [] := by
  cases l with
  | nil => simp [splitSep]
  | cons b rest =>
    simp only [splitSep]
    split
    · simp
    · cases h : splitSep rest <;> simp

theorem splitSep_of_noSep (l : List ℕ) (h : ∀ b ∈ l, isSep b = false) :
    splitSep l = [l] := by
  induction l with
  | nil => rfl
  | cons x xs ih =>
    have hx : isSep x = false := h x (by simp)
    have hxs : splitSep xs = [xs] := ih (fun b hb => h b (by simp [hb]))
    simp [splitSep, hx, hxs]

theorem two_le_splitSep_length (l : List ℕ) (b : ℕ) (hb : b ∈ l)
    (hs : isSep b = true) : 2 ≤ (splitSep l).length := by
  induction l with
  | nil => simp at hb
  | cons x xs ih =>
    simp only [List.mem_cons] at hb
    by_cases hx : isSep x = true
    · have := splitSep_ne_nil xs
      simp only [splitSep, hx, if_true, List.length_cons]
      cases h : splitSep xs with
      | nil => exact absurd h this
      | cons t ts => simp
    · rcases hb with rfl | hbin
      · exact absurd hs hx
      · have h2 := ih hbin
        simp only [splitSep, hx]
        simp only [Bool.not_eq_true] at hx
        simp only [hx, Bool.false_eq_true, if_false]
        cases h : splitSep xs with
        | nil => exact absurd h (splitSep_ne_nil xs)
        | cons t ts =>
          rw [h] at h2
          simpa using h2

theorem getLastD_cons_of_ne_nil (t : List ℕ) (ts : List (List ℕ))
    (h : ts ≠ []) : (t :: ts).getLastD [] = ts.getLastD [] := by
  cases ts with
  | nil => exact absurd rfl h
  | cons u us => simp [List.getLastD_cons]

theorem splitSep_getLastD_append (xs ys : List ℕ) (b : ℕ) (hb : b ∈ ys)
    (hs : isSep b = true) :
    (splitSep (xs ++ ys)).getLastD [] = (splitSep ys).getLastD [] := by
  induction xs with
  | nil => simp
  | cons x xt ih =>
    by_cases hx : isSep x = true
    · simp only [List.cons_append, splitSep, hx, if_true, List.append_eq]
      rw [getLastD_cons_of_ne_nil _ _ (splitSep_ne_nil (xt ++ ys))]
      exact ih
    · simp only [List.cons_append, splitSep]
      simp only [Bool.not_eq_true] at hx
      simp only [hx, Bool.false_eq_true, if_false]
      have h2 : 2 ≤ (splitSep (xt ++ ys)).length :=
        two_le_splitSep_length (xt ++ ys) b (by simp [hb]) hs
      cases h : splitSep (xt ++ ys) with
      | nil => exact absurd h (splitSep_ne_nil (xt ++ ys))
      | cons t ts =>
        rw [h] at h2
        have hts : ts ≠ [] := by
          cases ts with
          | nil => simp at h2
          | cons u us => simp
        rw [getLastD_cons_of_ne_nil _ _ hts, ← ih, h,
          getLastD_cons_of_ne_nil _ _ hts]

theorem splitSep_length_eq (l : List ℕ) :
    (splitSep l).length = l.countP isSep + 1 := by
  induction l with
  | nil => simp [splitSep]
  | cons x xs ih =>
    by_cases hx : isSep x = true
    · simp [splitSep, hx, List.countP_cons, ih]
    · simp only [Bool.not_eq_true] at hx
      simp only [splitSep, hx, Bool.false_eq_true, if_false]
      cases h : splitSep xs with
      | nil => exact absurd h (splitSep_ne_nil xs)
      | cons t ts =>
        rw [h] at ih
        simp only [List.countP_cons, hx, Bool.false_eq_true, if_false]
        simp only [List.length_cons] at ih ⊢
        omega

theorem splitSep_join (l : List ℕ) :
    (splitSep l).flatten = l.filter (fun b => ! isSep b) := by
  induction l with
  | nil => simp [splitSep]
  | cons x xs ih =>
    by_cases hx : isSep x = true
    · simp [splitSep, hx, ih]
    · simp only [Bool.not_eq_true] at hx
      simp only [splitSep, hx, Bool.false_eq_true, if_false]
      cases h : splitSep xs with
      | nil => exact absurd h (splitSep_ne_nil xs)
      | cons t ts =>
        rw [h] at ih
        simp only [List.flatten_cons] at ih ⊢
        simp [List.filter_cons, hx, ← ih]

/-! ### XOR fold lemmas -/

theorem natXor_comm (a b : ℕ) : Nat.xor a b = Nat.xor b a := Nat.xor_comm a b

theorem natXor_assoc (a b c : ℕ) :
    Nat.xor (Nat.xor a b) c = Nat.xor a (Nat.xor b c) := Nat.xor_assoc a b c

theorem natXor_self (a : ℕ) : Nat.xor a a = 0 := Nat.xor_self a

theorem natXor_zero (a : ℕ) : Nat.xor a 0 = a := Nat.xor_zero a

theorem natZero_xor (a : ℕ) : Nat.xor 0 a = a := Nat.zero_xor a

theorem foldl_gxor_acc (g : ℕ → ℕ) (l : List ℕ) (a : ℕ) :
    l.foldl (fun u x => Nat.xor u (g x)) a
      = Nat.xor a (l.foldl (fun u x => Nat.xor u (g x)) 0) := by
  induction l generalizing a with
  | nil => simp [natXor_zero]
  | cons x xs ih =>
    simp only [List.foldl_cons]
    rw [ih (Nat.xor a (g x)), ih (Nat.xor 0 (g x)), natZero_xor, natXor_assoc]

theorem foldGXor_set (g : ℕ → ℕ) (l : List ℕ) (i b : ℕ) (hi : i < l.length) :
    (l.set i b).foldl (fun u x => Nat.xor u (g x)) 0
      = Nat.xor (l.foldl (fun u x => Nat.xor u (g x)) 0)
          (Nat.xor (g (l.getD i 0)) (g b)) := by
  induction l generalizing i with
  | nil => simp at hi
  | cons x xs ih =>
    cases i with
    | zero =>
      simp only [List.set_cons_zero, List.getD_cons_zero, List.foldl_cons]
      rw [foldl_gxor_acc g xs (Nat.xor 0 (g b)), foldl_gxor_acc g xs (Nat.xor 0 (g x))]
      simp only [natZero_xor]
      rw [natXor_comm (g x) (xs.foldl (fun u x => Nat.xor u (g x)) 0), natXor_assoc,
        ← natXor_assoc (g x) (g x) (g b), natXor_self, natZero_xor,
        natXor_comm (xs.foldl (fun u x => Nat.xor u (g x)) 0) (g b)]
    | succ j =>
      simp only [List.set_cons_succ, List.getD_cons_succ, List.foldl_cons]
      rw [foldl_gxor_acc g (xs.set j b) (Nat.xor 0 (g x)),
        foldl_gxor_acc g xs (Nat.xor 0 (g x))]
      rw [ih j (by simpa using hi)]
      simp only [natXor_assoc]

theorem getD_set_ne (l : List ℕ) (i j b d : ℕ) (h : i ≠ j) :
    (l.set i b).getD j d = l.getD j d := by
  induction l generalizing i j with
  | nil => simp
  | cons x xs ih =>
    cases i with
    | zero =>
      cases j with
      | zero => exact absurd rfl h
      | succ m => simp
    | succ n =>
      cases j with
      | zero => simp
      | succ m =>
        simp only [List.set_cons_succ, List.getD_cons_succ]
        exact ih n m (by omega)

theorem getD_mem_of_lt (l : List ℕ) (i d : ℕ) (h : i < l.length) :
    l.getD i d ∈ l := by
  induction l generalizing i with
  | nil => simp at h
  | cons x xs ih =>
    cases i with
    | zero => simp
    | succ j =>
      simp only [List.getD_cons_succ, List.mem_cons]
      exact Or.inr (ih j (by simpa using h))

/-! ### Decoder structure lemmas -/

theorem framingOk_facts (cmd : List ℕ) (h : framingOk cmd = true) :
    cmd.getD 0 0 = 36 ∧ cmd.getD (cmd.length - 1) 0 = 10
    ∧ cmd.getD (cmd.length - 2) 0 = 13 ∧ cmd.getD (cmd.length - 5) 0 = 42 := by
  simp only [framingOk, Bool.and_eq_true, beq_iff_eq] at h
  exact ⟨h.1.1.1, h.1.1.2, h.1.2, h.2⟩

theorem framingOk_length (cmd : List ℕ) (h : framingOk cmd = true) :
    6 ≤ cmd.length := by
  obtain ⟨h36, -, -, h42⟩ := framingOk_facts cmd h
  by_contra h6
  have h0 : cmd.length - 5 = 0 := by omega
  rw [h0, h36] at h42
  exact absurd h42 (by decide)

theorem get_param_no_error_facts (cmd : List ℕ)
    (h : (lc76g_command_get_param cmd).1 = DecodeStatus.No_Error) :
    framingOk cmd = true
    ∧ hexVal (((splitSep cmd).getLastD []).getD 0 0) * 16
        + hexVal (((splitSep cmd).getLastD []).getD 1 0)
        = (lc76g_get_command_checksum (cmd.drop 1) (cmd.length - 6) : ℤ) := by
  simp only [lc76g_command_get_param] at h
  split_ifs at h with hf hd hk hc <;>
    first
      | exact absurd h (by decide)
      | exact ⟨by simpa using hf, by simpa using hc⟩

theorem lastTok_eq (cmd : List ℕ) (h : framingOk cmd = true) :
    (splitSep cmd).getLastD []
      = (splitSep (cmd.drop (cmd.length - 5))).getLastD [] := by
  conv_lhs => rw [← List.take_append_drop (cmd.length - 5) cmd]
  refine splitSep_getLastD_append _ _ 42 ?_ (by decide)
  have h42 := (framingOk_facts cmd h).2.2.2
  have hL := framingOk_length cmd h
  have hlt : cmd.length - 5 < cmd.length := by omega
  rw [drop_eq_getD_cons cmd _ hlt, h42]
  simp

theorem drop_L5_eq (cmd : List ℕ) (h6 : 6 ≤ cmd.length) :
    cmd.drop (cmd.length - 5)
      = [cmd.getD (cmd.length - 5) 0, cmd.getD (cmd.length - 4) 0,
         cmd.getD (cmd.length - 3) 0, cmd.getD (cmd.length - 2) 0,
         cmd.getD (cmd.length - 1) 0] := by
  have e1 : cmd.length - 5 < cmd.length := by omega
  rw [drop_eq_getD_cons cmd _ e1]
  have q1 : cmd.length - 5 + 1 = cmd.length - 4 := by omega
  rw [q1, drop_eq_getD_cons cmd _ (by omega)]
  have q2 : cmd.length - 4 + 1 = cmd.length - 3 := by omega
  rw [q2, drop_eq_getD_cons cmd _ (by omega)]
  have q3 : cmd.length - 3 + 1 = cmd.length - 2 := by omega
  rw [q3, drop_eq_getD_cons cmd _ (by omega)]
  have q4 : cmd.length - 2 + 1 = cmd.length - 1 := by omega
  rw [q4, drop_eq_getD_cons cmd _ (by omega)]
  have q5 : cmd.length - 1 + 1 = cmd.length := by omega
  rw [q5, List.drop_length]

theorem splitSep_cons_sep (b : ℕ) (l : List ℕ) (hb : isSep b = true) :
    splitSep (b :: l) = [] :: splitSep l := by
  simp [splitSep, hb]

theorem isUpperHex_not_sep (c : ℕ) (h : isUpperHex c = true) :
    isSep c = false := by
  simp only [isUpperHex, Bool.or_eq_true, Bool.and_eq_true, decide_eq_true_eq] at h
  simp only [isSep, Bool.or_eq_false_iff, beq_eq_false_iff_ne]
  omega

theorem lastTok_concrete (cmd : List ℕ) (h : framingOk cmd = true)
    (h1 : isSep (cmd.getD (cmd.length - 4) 0) = false)
    (h2 : isSep (cmd.getD (cmd.length - 3) 0) = false) :
    (splitSep cmd).getLastD []
      = [cmd.getD (cmd.length - 4) 0, cmd.getD (cmd.length - 3) 0, 13, 10] := by
  rw [lastTok_eq cmd h, drop_L5_eq cmd (framingOk_length cmd h)]
  obtain ⟨-, hnl, hcr, h42⟩ := framingOk_facts cmd h
  rw [h42, hnl, hcr]
  rw [splitSep_cons_sep 42 _ (by decide)]
  rw [splitSep_of_noSep _ ?hns]
  case hns =>
    intro b hb
    simp only [List.mem_cons, List.not_mem_nil, or_false] at hb
    rcases hb with rfl | rfl | rfl | rfl
    · exact h1
    · exact h2
    · decide
    · decide
  simp [List.getLastD]

/-! ### Retry-loop helper lemmas -/

theorem retryOp_first_ok {σ : Type} (f : σ → Bool × σ) (n : ℕ) (s : σ)
    (hn : n ≠ 0) (h : (f s).1 = true) : retryOp f n s = (true, (f s).2) := by
  cases n with
  | zero => exact absurd rfl hn
  | succ m => simp [retryOp, h]

theorem retryRead_first_some {σ : Type} (bus : Bus σ) (len : ℤ) (n : ℕ)
    (s : σ) (hn : n ≠ 0) (h : (bus.readRD s len).1.isSome) :
    retryRead bus len n s = bus.readRD s len := by
  cases n with
  | zero => exact absurd rfl hn
  | succ m =>
    rw [retryRead]
    cases hr : bus.readRD s len with
    | mk o s' =>
      cases o with
      | some b => rfl
      | none => rw [hr] at h; simp at h

theorem probeLoopW_first_ok {σ : Type} (bus : Bus σ) (n : ℕ) (s : σ)
    (hn : n ≠ 0) (h : (bus.writeDummy s QL_CRCW_ADDR).1 = true) :
    probeLoopW bus n s = (true, (bus.writeDummy s QL_CRCW_ADDR).2) := by
  cases n with
  | zero => exact absurd rfl hn
  | succ m => simp [probeLoopW, h]

theorem probeLoopR_first_ok {σ : Type} (bus : Bus σ) (n : ℕ) (s : σ)
    (hn : n ≠ 0) (h : (bus.writeDummy s QL_CRCW_ADDR).1 = true) :
    probeLoopR bus n s = (true, (bus.writeDummy s QL_CRCW_ADDR).2) := by
  cases n with
  | zero => exact absurd rfl hn
  | succ m => simp [probeLoopR, h]

/-- On the dead free-space oracle (always 1 byte free) with a 2-byte
payload, the writer loop never reaches its exit: `remain_flag` is
recomputed from the constant total `data_length = 2 > 1` every
iteration. -/
theorem write_data_loop_const1_more :
    ∀ (fuel : ℕ) (temp free : ℤ),
      (write_data_loop (constBus [1, 0, 0, 0] 0) [1, 2] 2 temp free fuel ()).1
        = WStatus.more := by
  intro fuel
  induction fuel with
  | zero => intro temp free; rfl
  | succ n ih =>
    intro temp free
    have hstep : write_data_loop (constBus [1, 0, 0, 0] 0) [1, 2] 2 temp free (n + 1) ()
        = ((write_data_loop (constBus [1, 0, 0, 0] 0) [1, 2] 2 (temp - 1) 1 n ()).1,
           [1] :: (write_data_loop (constBus [1, 0, 0, 0] 0) [1, 2] 2 (temp - 1) 1 n ()).2.1,
           (write_data_loop (constBus [1, 0, 0, 0] 0) [1, 2] 2 (temp - 1) 1 n ()).2.2) := rfl
    rw [hstep]
    exact ih (temp - 1) 1

/-- The writer can only report 0 (success) or -1 (probe/recovery
failure) when its outer loop exits. -/
theorem write_data_ret_values {σ : Type} (bus : Bus σ) (data : List ℕ)
    (dlen : ℤ) : ∀ (fuel : ℕ) (temp free : ℤ) (s : σ),
      (write_data_loop bus data dlen temp free fuel s).1 = WStatus.more
      ∨ (write_data_loop bus data dlen temp free fuel s).1 = WStatus.ret 0
      ∨ (write_data_loop bus data dlen temp free fuel s).1 = WStatus.ret (-1) := by
  intro fuel
  induction fuel with
  | zero => intro temp free s; exact Or.inl rfl
  | succ n ih =>
    intro temp free s
    simp only [write_data_loop]
    split
    · right; right; rfl
    · split
      · exact ih _ _ _
      · right; left; rfl

/-! ### Claim theorems -/

/-- C1: the claim states that for a payload of `N` bytes and negotiated
free-space values all below `N`, the writer issues exactly `ceil(N/F)`
bursts whose concatenation is the payload in order.  The code computes
`remain_flag` from the constant total `data_length` and always writes
intermediate bursts from the start of the payload buffer, so with payload
`[1,2]` and free space constantly 1 the loop never terminates and every
burst re-sends byte 1; with free space 2,2,100 over payload
`[5,6,7,8,9]` the run terminates but sends `[5,6],[5,6],[9]`, losing
bytes 7 and 8. -/
theorem c1_writer_burst_divergence :
    (∀ fuel : ℕ,
      (write_data (constBus [1, 0, 0, 0] 0) [1, 2] fuel ()).1 = WStatus.more)
    ∧ (write_data (constBus [1, 0, 0, 0] 0) [1, 2] 5 ()).2.1
        = [[1], [1], [1], [1], [1]]
    ∧ write_data (seqFreeBus [2, 2, 100]) [5, 6, 7, 8, 9] 5 0
        = (WStatus.ret 0, [[5, 6], [5, 6], [9]], 3)
    ∧ ([[5, 6], [5, 6], [9]] : List (List ℕ)).flatten ≠ [5, 6, 7, 8, 9] := by
  refine ⟨fun fuel => ?_, by decide, by decide, by decide⟩
  exact write_data_loop_const1_more fuel _ _

/-- C4: `recovery_i2c` probes the control, read-data and write-data
sub-addresses in that fixed order, returns the identity of the first
sub-address that acknowledges, and returns -1 exactly when all three
probes fail; on a fully dead bus the recorded probe sequence is
0x50, 0x54, 0x58. -/
theorem c4_recovery_probe_order {σ : Type} (bus : Bus σ) (s : σ) :
    ((recovery_i2c bus s).1 =
      (if (bus.writeDummy s QL_CRCW_ADDR).1 then 0
       else if (bus.writeDummy (bus.writeDummy s QL_CRCW_ADDR).2 QL_RD_ADDR).1 then 1
       else if (bus.writeDummy (bus.writeDummy (bus.writeDummy s QL_CRCW_ADDR).2
           QL_RD_ADDR).2 QL_WR_ADDR).1 then 2
       else -1))
    ∧ ((recovery_i2c bus s).1 = -1 ↔
        ((bus.writeDummy s QL_CRCW_ADDR).1 = false
        ∧ (bus.writeDummy (bus.writeDummy s QL_CRCW_ADDR).2 QL_RD_ADDR).1 = false
        ∧ (bus.writeDummy (bus.writeDummy (bus.writeDummy s QL_CRCW_ADDR).2
            QL_RD_ADDR).2 QL_WR_ADDR).1 = false))
    ∧ recovery_i2c recFailBus [] = (-1, [QL_CRCW_ADDR, QL_RD_ADDR, QL_WR_ADDR]) := by
  refine ⟨?_, ?_, by decide⟩
  · simp only [recovery_i2c]
    by_cases h1 : (bus.writeDummy s QL_CRCW_ADDR).1 <;>
      by_cases h2 : (bus.writeDummy (bus.writeDummy s QL_CRCW_ADDR).2 QL_RD_ADDR).1 <;>
      by_cases h3 : (bus.writeDummy (bus.writeDummy (bus.writeDummy s QL_CRCW_ADDR).2
          QL_RD_ADDR).2 QL_WR_ADDR).1 <;>
      simp [h1, h2, h3]
  · simp only [recovery_i2c]
    by_cases h1 : (bus.writeDummy s QL_CRCW_ADDR).1 <;>
      by_cases h2 : (bus.writeDummy (bus.writeDummy s QL_CRCW_ADDR).2 QL_RD_ADDR).1 <;>
      by_cases h3 : (bus.writeDummy (bus.writeDummy (bus.writeDummy s QL_CRCW_ADDR).2
          QL_RD_ADDR).2 QL_WR_ADDR).1 <;>
      simp [h1, h2, h3]

/-- C5 counterexample: on a bus where only the data write to the
write-data address fails, the data write fails its entire `RETRY_TIME`
budget (the state counts 20 failed attempts) yet the writer returns
success 0 — not the transport error `-1` the claim requires. -/
theorem c5_cex_data_write_failure_not_surfaced :
    write_data wrFailBus [1] 1 0 = (WStatus.ret 0, [[1]], 20)
    ∧ (20 : ℕ) = RETRY_TIME
    ∧ WStatus.ret 0 ≠ WStatus.ret (-1) := by decide

/-- C5 amended: every bus operation inside the writer is retried at most
`RETRY_TIME` times, and the writer exits with either 0 or -1; it returns
-1 when the control probe fails and recovery fails on all three
sub-addresses (fully dead bus), while a data write that fails its whole
retry budget is not surfaced — the writer returns success. -/
theorem c5_amended_writer_failure_modes :
    (∀ (σ : Type) (bus : Bus σ) (data : List ℕ) (fuel : ℕ) (s : σ),
      (write_data bus data fuel s).1 = WStatus.more
      ∨ (write_data bus data fuel s).1 = WStatus.ret 0
      ∨ (write_data bus data fuel s).1 = WStatus.ret (-1))
    ∧ (write_data deadBus [1] 1 ()).1 = WStatus.ret (-1)
    ∧ (recovery_i2c deadBus ()).1 = -1
    ∧ write_data wrFailBus [1] 1 0 = (WStatus.ret 0, [[1]], 20) := by
  exact ⟨fun σ bus data fuel s => write_data_ret_values bus data _ fuel _ _ s,
    by decide, by decide, by decide⟩

/-- C10: the framing check of the decoder reads offsets 0, length-1,
length-2 and length-5 of the command buffer; all four are within the
buffer exactly when the length is at least 5, and every call with
0 ≤ length < 5 reads offset length-5, which lies before the start of
the buffer. -/
theorem c10_framing_check_bounds :
    ∀ L : ℤ, ((∀ i ∈ framing_check_reads L, 0 ≤ i ∧ i < L) ↔ 5 ≤ L)
      ∧ (0 ≤ L → L < 5 → L - 5 ∈ framing_check_reads L ∧ L - 5 < 0) := by
  intro L
  refine ⟨?_, fun h1 h2 => ⟨by simp [framing_check_reads], by omega⟩⟩
  simp [framing_check_reads]
  omega

/-- Witness for C10 at `length = 3`: the framing check reads offset
`3 - 5`, which is outside the buffer. -/
theorem c10_witness :
    (3 : ℤ) - 5 ∈ framing_check_reads 3 ∧ (3 : ℤ) - 5 < 0 :=
  (c10_framing_check_bounds 3).2 (by norm_num) (by norm_num)

/-- C2 counterexample: an advertised pending length whose four bytes
decode to the negative value -1 is outside [0, MAX], so the claim
requires a transport error; the reader instead falls through the
`>= 35*1024` guard, skips the chunk loop and returns 0 (success, no
data). -/
theorem c2_cex_negative_length_not_error :
    buf2num_small [255, 255, 255, 255] = -1
    ∧ (read_data (constBus [255, 255, 255, 255] 65) 1 ()).map (fun r => r.1)
        = some { ret := 0, data := [], chunkReqs := [] }
    ∧ (0 : ℤ) ≠ -1 := by decide

/-- C2 amended: on a responsive bus whose length read yields the bytes
`b`, the reader returns "no data" (0) with no chunk reads when the
decoded length is 0, returns the transport error -1 with no chunk reads
when the decoded length is at least 35*1024, and — against the original
claim — also returns 0 with no chunk reads (success rather than a
transport error) when the decoded length is negative. -/
theorem c2_amended_reader_length_guard {σ : Type} (bus : Bus σ) (s : σ)
    (fuel : ℕ) (b : List ℕ) (hfuel : fuel ≠ 0)
    (hprobe : ∀ t : σ, (bus.writeDummy t QL_CRCW_ADDR).1 = true)
    (hcfg : ∀ t : σ, (bus.writeCfg t QL_CR_REG QL_CR_LEN).1 = true)
    (hlen : ∀ t : σ, (bus.readRD t QL_RW_DATA_LENGTH_SIZE).1 = some b) :
    (buf2num_small b = 0 →
      ∃ s', read_data bus fuel s = some ({ ret := 0, data := [], chunkReqs := [] }, s'))
    ∧ (35 * 1024 ≤ buf2num_small b →
      ∃ s', read_data bus fuel s = some ({ ret := -1, data := [], chunkReqs := [] }, s'))
    ∧ (buf2num_small b < 0 →
      ∃ s', read_data bus fuel s = some ({ ret := 0, data := [], chunkReqs := [] }, s')) := by
  obtain ⟨n, rfl⟩ : ∃ n, fuel = n + 1 := ⟨fuel - 1, by omega⟩
  have hRT : RETRY_TIME ≠ 0 := by decide
  have h1 : probeLoopR bus RETRY_TIME s = (true, (bus.writeDummy s QL_CRCW_ADDR).2) :=
    probeLoopR_first_ok bus _ s hRT (hprobe s)
  have h2 : retryOp (fun t => bus.writeCfg t QL_CR_REG QL_CR_LEN) RETRY_TIME
      (bus.writeDummy s QL_CRCW_ADDR).2
      = (true, (bus.writeCfg (bus.writeDummy s QL_CRCW_ADDR).2 QL_CR_REG QL_CR_LEN).2) :=
    retryOp_first_ok _ _ _ hRT (hcfg _)
  have h3 : retryRead bus QL_RW_DATA_LENGTH_SIZE RETRY_TIME
      (bus.writeCfg (bus.writeDummy s QL_CRCW_ADDR).2 QL_CR_REG QL_CR_LEN).2
      = bus.readRD (bus.writeCfg (bus.writeDummy s QL_CRCW_ADDR).2 QL_CR_REG QL_CR_LEN).2
          QL_RW_DATA_LENGTH_SIZE :=
    retryRead_first_some bus _ _ _ hRT (by rw [hlen]; rfl)
  refine ⟨fun hL0 => ?_, fun hLbig => ?_, fun hLneg => ?_⟩
  · simp only [read_data, read_data_loop, h1, h2, h3, hlen]
    simp [hL0]
  · simp only [read_data, read_data_loop, h1, h2, h3, hlen]
    have hL0 : ¬ buf2num_small b = 0 := by omega
    have hLbig' : (35840 : ℤ) ≤ buf2num_small b := by omega
    simp [hL0, hLbig']
  · simp only [read_data, read_data_loop, h1, h2, h3, hlen]
    have htn : (buf2num_small b).toNat = 0 := by omega
    refine ⟨(bus.readRD (bus.writeCfg (bus.writeDummy s QL_CRCW_ADDR).2
      QL_CR_REG QL_CR_LEN).2 QL_RW_DATA_LENGTH_SIZE).2, ?_⟩
    simp only [not_true, if_false]
    split_ifs with hC hD
    · exact absurd hC (by omega)
    · exact absurd hD (by omega)
    · rw [chunkLoop, htn]
      rfl

/-- Witness for C2 at the concrete bus advertising length bytes
FF FF FF FF (decoded length -1). -/
theorem c2_witness :
    ∃ s', read_data (constBus [255, 255, 255, 255] 65) 1 ()
      = some ({ ret := 0, data := [], chunkReqs := [] }, s') :=
  (c2_amended_reader_length_guard (constBus [255, 255, 255, 255] 65) () 1
    [255, 255, 255, 255] (by decide) (by decide) (by decide) (by decide)).2.2
    (by decide)

/-- C9 counterexample: on a bus where no sub-address ever acknowledges,
every `Write_Data` attempt returns -1, so the poller's
`do { Write_Data } while (ret != 0)` transmit loop never completes —
the poller iteration does not terminate, for any bound on the attempts
or on the writer fuel. -/
theorem c9_cex_poller_transmit_no_termination :
    ¬ ∃ (wfuel n : ℕ) (s' : Unit), transmitLoop deadBus [1] wfuel n () = some s' := by
  have hw : ∀ k : ℕ, write_data deadBus [1] (k + 1) () = (WStatus.ret (-1), [], ()) :=
    fun k => rfl
  have hall : ∀ wfuel n : ℕ, transmitLoop deadBus [1] wfuel n () = none := by
    intro wfuel n
    induction n with
    | zero => rfl
    | succ m ih =>
      cases wfuel with
      | zero => rfl
      | succ k =>
        rw [transmitLoop, hw k]
        simpa using ih
  rintro ⟨wfuel, n, s', h⟩
  rw [hall wfuel n] at h
  cases h

/-- C9 amended: every individual bus operation in the poller's read and
write paths is retried at most `RETRY_TIME` times (a loop of always
failing attempts stops after exactly 20), but the command transmit is
retried until `Write_Data` succeeds — the poller iteration terminates
when some attempt succeeds (here: a responsive bus with free space 100,
one attempt), not regardless of bus responses. -/
theorem c9_amended_poller_transmit_bounded :
    transmitLoop (constBus [100, 0, 0, 0] 0) [1] 1 1 () = some ()
    ∧ (write_data (constBus [100, 0, 0, 0] 0) [1] 1 ()).1 = WStatus.ret 0
    ∧ retryOp (fun t : ℕ => (false, t + 1)) RETRY_TIME 0 = (false, 20) := by decide

/-- When a command is outstanding and a poll cycle yields a buffer that
does not contain the expected response prefix but does contain a
complete line (CRLF), the poller advances the retry counter, or marks
the request `NOGET` once the counter reaches the budget. -/
theorem pollStep_miss_waiting (expRsp : List ℕ) (budget k : ℕ) (buf : List ℕ)
    (hmiss : substrIdx buf expRsp = none)
    (hcrlf : substrIdx buf [13, 10] ≠ none) :
    pollStep expRsp budget ⟨true, k, false, [], RspFlag.WAITING, ⟨[], 0, 0⟩⟩ buf
      = (if k + 1 < budget then ⟨true, k + 1, false, [], RspFlag.WAITING, ⟨[], 0, 0⟩⟩
         else ⟨false, 0, false, [], RspFlag.NOGET, ⟨[], 0, 0⟩⟩) := by
  simp [pollStep, hmiss, hcrlf]

/-- One-step unfolding of `pollRun`. -/
theorem pollRun_cons (expRsp : List ℕ) (budget : ℕ) (buf : List ℕ)
    (rest : List (List ℕ)) (st : PollState) :
    pollRun expRsp budget (buf :: rest) st
      = pollRun expRsp budget rest (pollStep expRsp budget st buf) := rfl

/-- A poll cycle leaves the state unchanged once no command is
outstanding. -/
theorem pollStep_inactive (expRsp : List ℕ) (budget : ℕ) (st : PollState)
    (buf : List ℕ) (hwf : st.write_flag = false) :
    pollStep expRsp budget st buf = st := by
  simp [pollStep, hwf]

/-- Iterated poll cycles leave the state unchanged once no command is
outstanding. -/
theorem pollRun_inactive (expRsp : List ℕ) (budget : ℕ) :
    ∀ (bufs : List (List ℕ)) (st : PollState), st.write_flag = false →
      pollRun expRsp budget bufs st = st := by
  intro bufs
  induction bufs with
  | nil => intro st _; rfl
  | cons buf rest ih =>
    intro st hwf
    rw [pollRun, List.foldl_cons, pollStep_inactive expRsp budget st buf hwf]
    exact ih st hwf

/-- Exhausting the retry budget on prefix-free complete buffers drives
the request state to `NOGET`, starting from any retry count already
consumed. -/
theorem pollRun_miss_noget (expRsp : List ℕ) (budget : ℕ) :
    ∀ (bufs : List (List ℕ)) (k : ℕ),
      (∀ buf ∈ bufs, substrIdx buf expRsp = none ∧ substrIdx buf [13, 10] ≠ none) →
      k < budget → budget ≤ k + bufs.length →
      (pollRun expRsp budget bufs
        ⟨true, k, false, [], RspFlag.WAITING, ⟨[], 0, 0⟩⟩).get_rsp_flag
          = RspFlag.NOGET := by
  intro bufs
  induction bufs with
  | nil =>
    intro k h hk hb
    simp only [List.length_nil] at hb
    omega
  | cons buf rest ih =>
    intro k h hk hb
    rw [pollRun_cons,
      pollStep_miss_waiting expRsp budget k buf (h buf (by simp)).1 (h buf (by simp)).2]
    by_cases hlt : k + 1 < budget
    · rw [if_pos hlt]
      exact ih (k + 1) (fun b hbm => h b (by simp [hbm])) hlt
        (by simp only [List.length_cons] at hb; omega)
    · rw [if_neg hlt]
      rw [pollRun_inactive expRsp budget rest
        ⟨false, 0, false, [], RspFlag.NOGET, ⟨[], 0, 0⟩⟩ rfl]

/-- C8: if `budget ≥ 1` poll cycles all yield buffers that contain a
complete line but never the expected response prefix, the poller
consumes the whole retry budget, the request state transitions to
`NOGET`, and `Write_Data_and_Get_Rsp` then releases the command lock
and returns the timeout error -1. -/
theorem c8_coordinator_timeout (expRsp : List ℕ) (budget : ℕ)
    (bufs : List (List ℕ)) (hbudget : 1 ≤ budget) (hlen : budget ≤ bufs.length)
    (hmiss : ∀ buf ∈ bufs, substrIdx buf expRsp = none)
    (hcrlf : ∀ buf ∈ bufs, substrIdx buf [13, 10] ≠ none) :
    (pollRun expRsp budget bufs initPollState).get_rsp_flag = RspFlag.NOGET
    ∧ (issue_outcome expRsp budget bufs).1
        = some { ret := -1, lockReleased := true } := by
  have h1 : (pollRun expRsp budget bufs initPollState).get_rsp_flag = RspFlag.NOGET :=
    pollRun_miss_noget expRsp budget bufs 0
      (fun buf hb => ⟨hmiss buf hb, hcrlf buf hb⟩) (by omega) (by omega)
  refine ⟨h1, ?_⟩
  simp only [issue_outcome, h1]
  rfl

/-- Witness for C8: expected prefix `$PMTK001`, budget 2, two poll
buffers `$A\r\n` containing a complete line but not the prefix. -/
theorem c8_witness :
    (pollRun [36, 80, 77, 84, 75, 48, 48, 49] 2
      [[36, 65, 13, 10], [36, 65, 13, 10]] initPollState).get_rsp_flag
        = RspFlag.NOGET
    ∧ (issue_outcome [36, 80, 77, 84, 75, 48, 48, 49] 2
        [[36, 65, 13, 10], [36, 65, 13, 10]]).1
          = some { ret := -1, lockReleased := true } :=
  c8_coordinator_timeout [36, 80, 77, 84, 75, 48, 48, 49] 2
    [[36, 65, 13, 10], [36, 65, 13, 10]] (by decide) (by decide)
    (by decide) (by decide)

/-- C7 counterexample: the frame `AAAA\0` (no leading `$`) contains the
non-printable byte 0, yet the validator returns `Format_Error`, not
`Data_Error` — the framing check runs before the byte scan, so a
non-printable byte inside a badly framed buffer does not produce
`Data_Error` as the claim requires. -/
theorem c7_cex_format_error_precedes_data_error :
    (lc76g_command_get_param [65, 65, 65, 65, 0]).1 = DecodeStatus.Format_Error
    ∧ (∃ b ∈ [65, 65, 65, 65, 0], nonPrintable b = true)
    ∧ (lc76g_command_get_param [65, 65, 65, 65, 0]).1 ≠ DecodeStatus.Data_Error := by
  decide

/-- C7 amended: among frames that pass the framing check, the validator
returns `Data_Error` exactly when some byte of the frame is outside the
accepted range (below 0x0A or above the byte value of `z`); a frame that
fails the framing check returns `Format_Error` even if it contains such
bytes. -/
theorem c7_amended_data_error_classification (cmd : List ℕ) :
    (framingOk cmd = true →
      ((lc76g_command_get_param cmd).1 = DecodeStatus.Data_Error
        ↔ cmd.any nonPrintable = true))
    ∧ (framingOk cmd = false →
      (lc76g_command_get_param cmd).1 = DecodeStatus.Format_Error) := by
  constructor
  · intro hf
    simp only [lc76g_command_get_param, hf]
    by_cases ha : cmd.any nonPrintable = true
    · simp [ha]
    · simp only [Bool.not_eq_true] at ha
      simp only [ha, Bool.false_eq_true, iff_false]
      split_ifs <;> simp_all
  · intro hf
    simp [lc76g_command_get_param, hf]

/-- Witness for C7 at the frame `$A*41\r\n`: framing passes, no byte is
outside the accepted range, and the validator indeed does not return
`Data_Error`. -/
theorem c7_witness :
    ((lc76g_command_get_param [36, 65, 42, 52, 49, 13, 10]).1
        = DecodeStatus.Data_Error
      ↔ ([36, 65, 42, 52, 49, 13, 10] : List ℕ).any nonPrintable = true) :=
  (c7_amended_data_error_classification [36, 65, 42, 52, 49, 13, 10]).1 (by decide)

/-- C3 counterexample: the frame `$\x09\x09*00\r\n` satisfies every
premise of the claim — length at least 5, leading `$`, trailing CRLF,
`*` at length-5, two uppercase-hex checksum characters whose value
equals the XOR of the payload bytes (9 XOR 9 = 0) — yet the validator
returns `Data_Error`, because the payload bytes 0x09 are below the
accepted range. -/
theorem c3_cex_checksum_valid_frame_rejected :
    (5 ≤ ([36, 9, 9, 42, 48, 48, 13, 10] : List ℕ).length)
    ∧ ([36, 9, 9, 42, 48, 48, 13, 10] : List ℕ).getD 0 0 = 36
    ∧ ([36, 9, 9, 42, 48, 48, 13, 10] : List ℕ).getD 7 0 = 10
    ∧ ([36, 9, 9, 42, 48, 48, 13, 10] : List ℕ).getD 6 0 = 13
    ∧ ([36, 9, 9, 42, 48, 48, 13, 10] : List ℕ).getD 3 0 = 42
    ∧ isUpperHex (([36, 9, 9, 42, 48, 48, 13, 10] : List ℕ).getD 4 0) = true
    ∧ isUpperHex (([36, 9, 9, 42, 48, 48, 13, 10] : List ℕ).getD 5 0) = true
    ∧ hexVal (([36, 9, 9, 42, 48, 48, 13, 10] : List ℕ).getD 4 0) * 16
        + hexVal (([36, 9, 9, 42, 48, 48, 13, 10] : List ℕ).getD 5 0)
        = (lc76g_get_command_checksum ([36, 9, 9, 42, 48, 48, 13, 10].drop 1) 2 : ℤ)
    ∧ (lc76g_command_get_param [36, 9, 9, 42, 48, 48, 13, 10]).1
        = DecodeStatus.Data_Error
    ∧ DecodeStatus.Data_Error ≠ DecodeStatus.No_Error := by decide

/-- C3 amended: a frame of length at least 5 that starts with `$`, ends
with CRLF, has `*` at length-5 followed by two uppercase-hex checksum
characters equal to the XOR of the bytes strictly between `$` and `*`,
and — additionally to the original claim — whose bytes all lie in the
accepted range [0x0A, byte `z`], is accepted with `No_Error`, and the
decoder exposes the `,`/`*`-separated token list and the separator
count. -/
theorem c3_amended_validator_accepts (cmd : List ℕ)
    (hL : 5 ≤ cmd.length)
    (h0 : cmd.getD 0 0 = 36)
    (hnl : cmd.getD (cmd.length - 1) 0 = 10)
    (hcr : cmd.getD (cmd.length - 2) 0 = 13)
    (hst : cmd.getD (cmd.length - 5) 0 = 42)
    (hx1 : isUpperHex (cmd.getD (cmd.length - 4) 0) = true)
    (hx2 : isUpperHex (cmd.getD (cmd.length - 3) 0) = true)
    (hck : hexVal (cmd.getD (cmd.length - 4) 0) * 16
        + hexVal (cmd.getD (cmd.length - 3) 0)
        = (lc76g_get_command_checksum (cmd.drop 1) (cmd.length - 6) : ℤ))
    (hpr : ∀ b ∈ cmd, 10 ≤ b ∧ b ≤ 122) :
    (lc76g_command_get_param cmd).1 = DecodeStatus.No_Error
    ∧ (lc76g_command_get_param cmd).2.params = splitSep cmd
    ∧ (lc76g_command_get_param cmd).2.param_num = cmd.countP isSep
    ∧ (lc76g_command_get_param cmd).2.params.flatten
        = cmd.filter (fun b => ! isSep b) := by
  have hf : framingOk cmd = true := by
    simp only [framingOk, Bool.and_eq_true, beq_iff_eq]
    exact ⟨⟨⟨h0, hnl⟩, hcr⟩, hst⟩
  have hany : cmd.any nonPrintable = false := by
    rw [List.any_eq_false]
    intro b hb
    have hrange := hpr b hb
    simp only [nonPrintable, Bool.or_eq_true, decide_eq_true_eq]
    omega
  have hlast := lastTok_concrete cmd hf
    (isUpperHex_not_sep _ hx1) (isUpperHex_not_sep _ hx2)
  have hctx : (lc76g_command_get_param cmd).2
      = ⟨splitSep cmd, (splitSep cmd).length - 1,
         (lc76g_get_command_checksum (cmd.drop 1) (cmd.length - 6) : ℤ)⟩ := by
    simp only [lc76g_command_get_param]
    split_ifs <;> rfl
  refine ⟨?_, ?_, ?_, ?_⟩
  · have hck2 : hexVal (cmd[cmd.length - 4]?.getD 0) * 16
        + hexVal (cmd[cmd.length - 3]?.getD 0)
        = (lc76g_get_command_checksum cmd.tail (cmd.length - 6) : ℤ) := by
      simpa using hck
    simp only [lc76g_command_get_param, hlast, hf, hany]
    simp [hck2]
  · rw [hctx]
  · rw [hctx, splitSep_length_eq]
    simp
  · rw [hctx]
    exact splitSep_join cmd

/-- Witness for C3 at the frame `$A*41\r\n` (payload `A`, XOR 0x41). -/
theorem c3_witness :
    (lc76g_command_get_param [36, 65, 42, 52, 49, 13, 10]).1
        = DecodeStatus.No_Error
    ∧ (lc76g_command_get_param [36, 65, 42, 52, 49, 13, 10]).2.params
        = splitSep [36, 65, 42, 52, 49, 13, 10]
    ∧ (lc76g_command_get_param [36, 65, 42, 52, 49, 13, 10]).2.param_num
        = ([36, 65, 42, 52, 49, 13, 10] : List ℕ).countP isSep
    ∧ (lc76g_command_get_param [36, 65, 42, 52, 49, 13, 10]).2.params.flatten
        = ([36, 65, 42, 52, 49, 13, 10] : List ℕ).filter (fun b => ! isSep b) :=
  c3_amended_validator_accepts [36, 65, 42, 52, 49, 13, 10] (by decide) (by decide)
    (by decide) (by decide) (by decide) (by decide) (by decide) (by decide)
    (by decide)

/-- C6: for every frame the validator accepts, replacing any single
payload byte (position strictly between `$` and the `*` at length-5) by
a different byte value changes the XOR checksum computed over the
payload, and the modified frame is no longer accepted as valid. -/
theorem c6_checksum_sensitivity (cmd : List ℕ) (p b' : ℕ)
    (hbytes : ∀ b ∈ cmd, b < 256) (hb' : b' < 256)
    (hacc : (lc76g_command_get_param cmd).1 = DecodeStatus.No_Error)
    (hp1 : 1 ≤ p) (hp2 : p ≤ cmd.length - 6)
    (hne : b' ≠ cmd.getD p 0) :
    lc76g_get_command_checksum ((cmd.set p b').drop 1) ((cmd.set p b').length - 6)
        ≠ lc76g_get_command_checksum (cmd.drop 1) (cmd.length - 6)
    ∧ (lc76g_command_get_param (cmd.set p b')).1 ≠ DecodeStatus.No_Error := by
  have hfacts := get_param_no_error_facts cmd hacc
  have hf : framingOk cmd = true := hfacts.1
  have hL6 : 6 ≤ cmd.length := framingOk_length cmd hf
  have hL7 : 7 ≤ cmd.length := by omega
  have hlenset : (cmd.set p b').length = cmd.length := by simp
  have hpL : p < cmd.length := by omega
  have hslice : ((cmd.set p b').drop 1).take (cmd.length - 6)
      = ((cmd.drop 1).take (cmd.length - 6)).set (p - 1) b' := by
    obtain ⟨q, rfl⟩ : ∃ q, p = q + 1 := ⟨p - 1, by omega⟩
    rw [set_drop_one, take_set_lt _ _ _ _ (by omega)]
    simp
  have hsl : ((cmd.drop 1).take (cmd.length - 6)).length = cmd.length - 6 := by
    simp only [List.length_take, List.length_drop]
    omega
  have hgd : ((cmd.drop 1).take (cmd.length - 6)).getD (p - 1) 0 = cmd.getD p 0 := by
    rw [getD_take _ _ _ _ (by omega), getD_drop]
    congr 1
    omega
  have hbp : cmd.getD p 0 < 256 := hbytes _ (getD_mem_of_lt cmd p 0 hpL)
  have hxne : Nat.xor (cmd.getD p 0) b' ≠ 0 := by
    intro h0
    have h2 := congrArg (Nat.xor (cmd.getD p 0)) h0
    rw [← natXor_assoc, natXor_self, natZero_xor, natXor_zero] at h2
    exact hne h2
  have hA : lc76g_get_command_checksum ((cmd.set p b').drop 1)
      ((cmd.set p b').length - 6)
      ≠ lc76g_get_command_checksum (cmd.drop 1) (cmd.length - 6) := by
    unfold lc76g_get_command_checksum
    rw [hlenset, hslice, foldGXor_set (fun x => x % 256) _ _ _ (by omega), hgd,
      Nat.mod_eq_of_lt hbp, Nat.mod_eq_of_lt hb']
    intro hcontra
    have h2 := congrArg
      (Nat.xor (((cmd.drop 1).take (cmd.length - 6)).foldl
        (fun u x => Nat.xor u (x % 256)) 0)) hcontra.symm
    rw [← natXor_assoc, natXor_self, natZero_xor] at h2
    exact hxne h2.symm
  refine ⟨hA, ?_⟩
  intro hacc2
  have hfacts2 := get_param_no_error_facts _ hacc2
  have hf2 : framingOk (cmd.set p b') = true := hfacts2.1
  have hdropeq : (cmd.set p b').drop (cmd.length - 5) = cmd.drop (cmd.length - 5) :=
    drop_set_of_lt cmd p (cmd.length - 5) b' (by omega)
  have hlast2 : (splitSep (cmd.set p b')).getLastD [] = (splitSep cmd).getLastD [] := by
    rw [lastTok_eq _ hf2, lastTok_eq _ hf, hlenset, hdropeq]
  have heq2 := hfacts2.2
  rw [hlast2, hlenset] at heq2
  have heq1 := hfacts.2
  have hcast : (lc76g_get_command_checksum ((cmd.set p b').drop 1)
      (cmd.length - 6) : ℤ)
      = (lc76g_get_command_checksum (cmd.drop 1) (cmd.length - 6) : ℤ) := by
    rw [← heq2, heq1]
  have hnat : lc76g_get_command_checksum ((cmd.set p b').drop 1) (cmd.length - 6)
      = lc76g_get_command_checksum (cmd.drop 1) (cmd.length - 6) := by
    exact_mod_cast hcast
  rw [hlenset] at hA
  exact hA hnat

/-- Witness for C6 at the accepted frame `$A*41\r\n`, flipping the
payload byte at position 1 from `A` (0x41) to `B` (0x42). -/
theorem c6_witness :
    lc76g_get_command_checksum (([36, 65, 42, 52, 49, 13, 10].set 1 66).drop 1)
        ((([36, 65, 42, 52, 49, 13, 10] : List ℕ).set 1 66).length - 6)
      ≠ lc76g_get_command_checksum ([36, 65, 42, 52, 49, 13, 10].drop 1)
          (([36, 65, 42, 52, 49, 13, 10] : List ℕ).length - 6)
    ∧ (lc76g_command_get_param ([36, 65, 42, 52, 49, 13, 10].set 1 66)).1
        ≠ DecodeStatus.No_Error :=
  c6_checksum_sensitivity [36, 65, 42, 52, 49, 13, 10] 1 66 (by decide) (by decide)
    (by decide) (by decide) (by decide) (by decide)

end LC76G
